import Mathlib

/-
Verification of the snapshot-diff engine and process-identity/error model of a
process/system monitoring library (rust-psutil).

Modelling conventions:
- Rust u64 values are modelled as Nat; every u64 arithmetic operation is modelled
  checked (`u64add` / `u64sub` return `none` on overflow or underflow, which in the
  source is an arithmetic panic in debug builds and a wrapped, meaningless value in
  release builds). A `some` result is the exact mathematical value, which coincides
  with the machine result whenever no overflow occurs.
- `std::time::Duration` values are modelled as Nat (a count of the unit the source
  manipulates: nanoseconds for CPU times, milliseconds where the source calls
  `as_millis` / `from_millis`).
- `HashMap<String, T>` is modelled as an association list `List (String × T)`;
  iteration order is the list order, lookup is `List.lookup`.
- Functions that read the system (procfs reads, syscalls) take the already-parsed
  reading, or a `World` record of uninterpreted outcomes, as an explicit argument.
-/

/-- Upper bound (exclusive) of the u64 value space. -/
def U64LIMIT : Nat := 2 ^ 64

/-- Checked u64 addition: `none` models the overflow panic. -/
def u64add (a b : Nat) : Option Nat :=
  if a + b < U64LIMIT then some (a + b) else none

/-- Checked u64 subtraction: `none` models the underflow panic. -/
def u64sub (a b : Nat) : Option Nat :=
  if b ≤ a then some (a - b) else none

/-- Value of `std::u32::MAX` cast to u64, as used by the wrap branch of `nowrap`
in src/disk/disk_io_counters.rs and src/network/sys/linux/net_io_counters.rs. -/
def U32MAX : Nat := 4294967295

namespace Disk

/-- Embedding of `nowrap` from src/disk/disk_io_counters.rs lines 43-49:
if `current >= prev` the result is `corrected + (current - prev)`, otherwise
`corrected + current + ((u32::MAX as u64) - prev)`, in checked u64 arithmetic. -/
def nowrap (prev current corrected : Nat) : Option Nat :=
  if current ≥ prev then
    match u64sub current prev with
    | none => none
    | some d => u64add corrected d
  else
    match u64add corrected current with
    | none => none
    | some s =>
      match u64sub U32MAX prev with
      | none => none
      | some d => u64add s d

end Disk

namespace NetLinux

/-- Embedding of `nowrap` from src/network/sys/linux/net_io_counters.rs lines 80-86;
its body is identical to the disk variant (wrap boundary `u32::MAX`). -/
def nowrap (prev current corrected : Nat) : Option Nat :=
  if current ≥ prev then
    match u64sub current prev with
    | none => none
    | some d => u64add corrected d
  else
    match u64add corrected current with
    | none => none
    | some s =>
      match u64sub U32MAX prev with
      | none => none
      | some d => u64add s d

end NetLinux

namespace NetworkRs

/-- The constant `MAX_VALUE` of `nowrap` in src/network.rs line 159. -/
def MAX_VALUE : Nat := 4294967296

/-- Embedding of `nowrap` from src/network.rs lines 158-165:
if `current_value >= past_value` the result is `total_value + current_value - past_value`,
otherwise `total_value + current_value + MAX_VALUE - past_value` (left associated),
in checked u64 arithmetic. -/
def nowrap (past_value current_value total_value : Nat) : Option Nat :=
  if current_value ≥ past_value then
    match u64add total_value current_value with
    | none => none
    | some s => u64sub s past_value
  else
    match u64add total_value current_value with
    | none => none
    | some s =>
      match u64add s MAX_VALUE with
      | none => none
      | some s2 => u64sub s2 past_value

end NetworkRs

theorem u64add_some {a b r : Nat} (h : u64add a b = some r) : r = a + b := by
  unfold u64add at h
  split at h
  · exact (Option.some.injEq _ _ ▸ h).symm
  · exact absurd h (by simp)

theorem u64sub_some {a b r : Nat} (h : u64sub a b = some r) : b ≤ a ∧ r = a - b := by
  unfold u64sub at h
  split at h
  · exact ⟨by assumption, (Option.some.injEq _ _ ▸ h).symm⟩
  · exact absurd h (by simp)

theorem u64sub_none {a b : Nat} (h : a < b) : u64sub a b = none := by
  unfold u64sub
  rw [if_neg (by omega)]

/-- C1: the spec asserts that the wrap branch computes
`current_raw + (4_294_967_296 - previous_raw)`, so that with `previous_raw = 4294967290`
and `current_raw = 10` the delta is 16. Evaluating both cited implementations at that
input (with `corrected_total = 100`): the src/network.rs implementation (whose wrap
constant is `MAX_VALUE = 4_294_967_296`, confirmed by its own unit test) adds 16 as
claimed, while the src/disk/disk_io_counters.rs implementation (wrap constant
`u32::MAX = 4_294_967_295`) adds only 15 — the disk variant is off by one against the
spec and against the sibling implementation. -/
theorem c1_nowrap_boundary :
    NetworkRs.nowrap 4294967290 10 100 = some 116 ∧
      Disk.nowrap 4294967290 10 100 = some 115 := by
  constructor <;> rfl

/-- C4: the nowrap correction is monotone in the accumulator. For every input on which
the (checked u64) computation returns a value, the returned corrected total is at least
the corrected total passed in, in both branches, for both the disk and the
network/sys/linux implementation. -/
theorem c4_nowrap_monotone :
    (∀ prev current corrected r, Disk.nowrap prev current corrected = some r →
      corrected ≤ r) ∧
    (∀ prev current corrected r, NetLinux.nowrap prev current corrected = some r →
      corrected ≤ r) := by
  constructor <;>
  · intro prev current corrected r h
    first
    | unfold Disk.nowrap at h
    | unfold NetLinux.nowrap at h
    split at h
    · split at h
      · exact absurd h (by simp)
      · rename_i d hd
        have := u64add_some h
        omega
    · split at h
      · exact absurd h (by simp)
      · rename_i s hs
        have hs' := u64add_some hs
        split at h
        · exact absurd h (by simp)
        · have := u64add_some h
          omega

/-- C4 witness: the monotonicity theorem applied at concrete inputs, one per branch
and implementation. -/
theorem c4_nowrap_monotone_witness :
    (7 : Nat) ≤ 12 ∧ (100 : Nat) ≤ 110 ∧ (3 : Nat) ≤ 8 ∧ (50 : Nat) ≤ 4294967335 := by
  refine ⟨?_, ?_, ?_, ?_⟩
  · exact c4_nowrap_monotone.1 0 5 7 12 (by rfl)
  · exact c4_nowrap_monotone.1 4294967290 5 100 110 (by rfl)
  · exact c4_nowrap_monotone.2 0 5 3 8 (by rfl)
  · exact c4_nowrap_monotone.2 10 0 50 4294967335 (by rfl)

/-- C10: the wrap branch of the nowrap correction is well defined only when the
previous raw value is at most `u32::MAX`: for every input with `previous > u32::MAX`
and `current < previous`, the u64 subtraction `u32::MAX - previous` underflows (a
panic in the source), so neither the disk nor the network/sys/linux implementation is
total without that precondition. -/
theorem c10_nowrap_underflow :
    ∀ prev current corrected, U32MAX < prev → current < prev →
      Disk.nowrap prev current corrected = none ∧
        NetLinux.nowrap prev current corrected = none := by
  intro prev current corrected hmax hcur
  constructor
  · unfold Disk.nowrap
    rw [if_neg (by omega)]
    cases h : u64add corrected current with
    | none => simp
    | some s => simp [u64sub_none hmax]
  · unfold NetLinux.nowrap
    rw [if_neg (by omega)]
    cases h : u64add corrected current with
    | none => simp
    | some s => simp [u64sub_none hmax]

/-- C10 witness: the underflow theorem applied at `previous = 2^33`, `current = 7`,
`corrected = 0`. -/
theorem c10_nowrap_underflow_witness :
    Disk.nowrap 8589934592 7 0 = none ∧ NetLinux.nowrap 8589934592 7 0 = none :=
  c10_nowrap_underflow 8589934592 7 0 (by norm_num [U32MAX]) (by norm_num)

namespace Disk

/-- Embedding of the `DiskIoCounters` record from src/disk/disk_io_counters.rs.
The three `Duration` fields are modelled by their millisecond count, the unit the
source converts to (`as_millis`) before applying `nowrap` and back (`from_millis`). -/
structure DiskIoCounters where
  read_count : Nat
  write_count : Nat
  read_bytes : Nat
  write_bytes : Nat
  read_time : Nat
  write_time : Nat
  read_merged_count : Nat
  write_merged_count : Nat
  busy_time : Nat
deriving DecidableEq, Repr

/-- Embedding of `nowrap_struct` from src/disk/disk_io_counters.rs lines 51-87:
`nowrap` applied fieldwise; `none` propagates an arithmetic panic of any field. -/
def nowrap_struct (prev current corrected : DiskIoCounters) :
    Option DiskIoCounters := do
  let read_count ← nowrap prev.read_count current.read_count corrected.read_count
  let write_count ← nowrap prev.write_count current.write_count corrected.write_count
  let read_bytes ← nowrap prev.read_bytes current.read_bytes corrected.read_bytes
  let write_bytes ← nowrap prev.write_bytes current.write_bytes corrected.write_bytes
  let read_time ← nowrap prev.read_time current.read_time corrected.read_time
  let write_time ← nowrap prev.write_time current.write_time corrected.write_time
  let read_merged_count ←
    nowrap prev.read_merged_count current.read_merged_count corrected.read_merged_count
  let write_merged_count ←
    nowrap prev.write_merged_count current.write_merged_count corrected.write_merged_count
  let busy_time ← nowrap prev.busy_time current.busy_time corrected.busy_time
  pure
    { read_count := read_count, write_count := write_count, read_bytes := read_bytes,
      write_bytes := write_bytes, read_time := read_time, write_time := write_time,
      read_merged_count := read_merged_count, write_merged_count := write_merged_count,
      busy_time := busy_time }

end Disk

namespace NetLinux

/-- Embedding of the `NetIoCounters` record from src/network/sys/linux/net_io_counters.rs. -/
structure NetIoCounters where
  bytes_sent : Nat
  bytes_recv : Nat
  packets_sent : Nat
  packets_recv : Nat
  err_in : Nat
  err_out : Nat
  drop_in : Nat
  drop_out : Nat
deriving DecidableEq, Repr

/-- The record that src/network/sys/linux/net_io_counters.rs lines 102-146 builds
inline inside `fix_io_counter_overflow` when an entity is present in all three maps:
`nowrap` applied fieldwise. -/
def nowrap_counters (prev current corrected : NetIoCounters) :
    Option NetIoCounters := do
  let bytes_sent ← nowrap prev.bytes_sent current.bytes_sent corrected.bytes_sent
  let bytes_recv ← nowrap prev.bytes_recv current.bytes_recv corrected.bytes_recv
  let packets_sent ← nowrap prev.packets_sent current.packets_sent corrected.packets_sent
  let packets_recv ← nowrap prev.packets_recv current.packets_recv corrected.packets_recv
  let err_in ← nowrap prev.err_in current.err_in corrected.err_in
  let err_out ← nowrap prev.err_out current.err_out corrected.err_out
  let drop_in ← nowrap prev.drop_in current.drop_in corrected.drop_in
  let drop_out ← nowrap prev.drop_out current.drop_out corrected.drop_out
  pure
    { bytes_sent := bytes_sent, bytes_recv := bytes_recv, packets_sent := packets_sent,
      packets_recv := packets_recv, err_in := err_in, err_out := err_out,
      drop_in := drop_in, drop_out := drop_out }

end NetLinux

/-- An entity-keyed map, modelling `HashMap<String, T>` as an association list. -/
abbrev EntityMap (α : Type) := List (String × α)

/-- The common iteration shape of both `fix_io_counter_overflow` implementations:
build the result map by fixing each entry of the current reading in order, where
fixing one entry may panic (`none`). -/
def fixList {α : Type} (f : String → α → Option α) : EntityMap α → Option (EntityMap α)
  | [] => some []
  | (name, cur) :: rest =>
    match f name cur with
    | none => none
    | some v =>
      match fixList f rest with
      | none => none
      | some r => some ((name, v) :: r)

theorem fixList_keys {α : Type} (f : String → α → Option α) :
    ∀ l res, fixList f l = some res → res.map Prod.fst = l.map Prod.fst := by
  intro l
  induction l with
  | nil =>
    intro res h
    simp [fixList] at h
    simp [← h]
  | cons hd tl ih =>
    intro res h
    obtain ⟨name, cur⟩ := hd
    unfold fixList at h
    split at h
    · exact absurd h (by simp)
    · rename_i v hv
      split at h
      · exact absurd h (by simp)
      · rename_i r hr
        obtain rfl : (name, v) :: r = res := by simpa using h
        simpa using ih r hr

theorem fixList_lookup {α : Type} (f : String → α → Option α) :
    ∀ l res, fixList f l = some res →
      ∀ n, List.lookup n res = (List.lookup n l).bind (f n) := by
  intro l
  induction l with
  | nil =>
    intro res h n
    simp [fixList] at h
    subst h
    rfl
  | cons hd tl ih =>
    intro res h n
    obtain ⟨name, cur⟩ := hd
    unfold fixList at h
    split at h
    · exact absurd h (by simp)
    · rename_i v hv
      split at h
      · exact absurd h (by simp)
      · rename_i r hr
        obtain rfl : (name, v) :: r = res := by simpa using h
        by_cases hn : n = name
        · subst hn
          simp [List.lookup, hv]
        · have hne : (n == name) = false := beq_false_of_ne hn
          simp [List.lookup, hne, ih r hr n]

namespace Disk

/-- The per-entry body of `fix_io_counter_overflow` from src/disk/disk_io_counters.rs
lines 96-107: if the entity is missing from the stored previous map or from the
corrected map, its fresh counters pass through unchanged; otherwise `nowrap_struct`
is applied. -/
def fix_entry (prev corrected : EntityMap DiskIoCounters) (name : String)
    (current_counters : DiskIoCounters) : Option DiskIoCounters :=
  match List.lookup name prev, List.lookup name corrected with
  | some prev_counters, some corrected_counters =>
    nowrap_struct prev_counters current_counters corrected_counters
  | _, _ => some current_counters

/-- Embedding of `fix_io_counter_overflow` from src/disk/disk_io_counters.rs
lines 89-110: the result map is built from exactly the entries of the current map. -/
def fix_io_counter_overflow (prev current corrected : EntityMap DiskIoCounters) :
    Option (EntityMap DiskIoCounters) :=
  fixList (fix_entry prev corrected) current

/-- Embedding of the `DiskIoCountersCollector` state from
src/disk/disk_io_counters.rs lines 114-118. `Default` derives to two `None`s. -/
structure DiskIoCountersCollector where
  prev_disk_io_counters_perdisk : Option (EntityMap DiskIoCounters)
  corrected_disk_io_counters_perdisk : Option (EntityMap DiskIoCounters)
deriving DecidableEq, Repr

/-- The freshly constructed collector (`Default::default()`). -/
def DiskIoCountersCollector.default : DiskIoCountersCollector := ⟨none, none⟩

/-- Embedding of `DiskIoCountersCollector::disk_io_counters_perdisk` from
src/disk/disk_io_counters.rs lines 125-142. The fresh procfs reading is the
explicit argument `io_counters`; the returned pair is (result, updated collector). -/
def disk_io_counters_perdisk (self : DiskIoCountersCollector)
    (io_counters : EntityMap DiskIoCounters) :
    Option (EntityMap DiskIoCounters × DiskIoCountersCollector) :=
  match (self.prev_disk_io_counters_perdisk,
      self.corrected_disk_io_counters_perdisk) with
  | (some prev, some corrected) =>
    match fix_io_counter_overflow prev io_counters corrected with
    | none => none
    | some corrected_counters =>
      some (corrected_counters, ⟨some io_counters, some corrected_counters⟩)
  | _ => some (io_counters, ⟨some io_counters, some io_counters⟩)

end Disk

namespace NetLinux

/-- The per-entry body of `fix_io_counter_overflow` from
src/network/sys/linux/net_io_counters.rs lines 95-148. -/
def fix_entry (prev corrected : EntityMap NetIoCounters) (name : String)
    (current_counters : NetIoCounters) : Option NetIoCounters :=
  match List.lookup name prev, List.lookup name corrected with
  | some prev_counters, some corrected_counters =>
    nowrap_counters prev_counters current_counters corrected_counters
  | _, _ => some current_counters

/-- Embedding of `fix_io_counter_overflow` from
src/network/sys/linux/net_io_counters.rs lines 88-151. -/
def fix_io_counter_overflow (prev current corrected : EntityMap NetIoCounters) :
    Option (EntityMap NetIoCounters) :=
  fixList (fix_entry prev corrected) current

/-- Embedding of the `NetIoCountersCollector` state from
src/network/sys/linux/net_io_counters.rs lines 154-158. -/
structure NetIoCountersCollector where
  prev_net_io_counters_pernic : Option (EntityMap NetIoCounters)
  corrected_net_io_counters_pernic : Option (EntityMap NetIoCounters)
deriving DecidableEq, Repr

/-- The freshly constructed collector (`Default::default()`). -/
def NetIoCountersCollector.default : NetIoCountersCollector := ⟨none, none⟩

/-- Embedding of `NetIoCountersCollector::net_io_counters_pernic` from
src/network/sys/linux/net_io_counters.rs lines 171-219, starting after the
parse of `/proc/net/dev`; the parsed per-interface map is the explicit argument
`io_counters`. -/
def net_io_counters_pernic (self : NetIoCountersCollector)
    (io_counters : EntityMap NetIoCounters) :
    Option (EntityMap NetIoCounters × NetIoCountersCollector) :=
  match (self.prev_net_io_counters_pernic,
      self.corrected_net_io_counters_pernic) with
  | (some prev, some corrected) =>
    match fix_io_counter_overflow prev io_counters corrected with
    | none => none
    | some corrected_counters =>
      some (corrected_counters, ⟨some io_counters, some corrected_counters⟩)
  | _ => some (io_counters, ⟨some io_counters, some io_counters⟩)

end NetLinux

/-- A sample disk reading used by concrete witnesses. -/
def dA : Disk.DiskIoCounters := ⟨1, 2, 3, 4, 5, 6, 7, 8, 9⟩

/-- A second sample disk reading with a visibly nonzero byte counter. -/
def dB : Disk.DiskIoCounters := ⟨10, 20, 1000, 40, 50, 60, 70, 80, 90⟩

/-- A sample network reading used by concrete witnesses. -/
def nA : NetLinux.NetIoCounters := ⟨1, 2, 3, 4, 5, 6, 7, 8⟩

/-- A second sample network reading with a visibly nonzero byte counter. -/
def nB : NetLinux.NetIoCounters := ⟨100, 200, 300, 400, 0, 0, 0, 0⟩

/-- C9: for both per-entity fix functions, whenever the computation returns, the result
map has exactly the keys of the fresh (current) reading; an entity present in the fresh
reading but missing from the stored previous map or from the corrected map passes
through with its raw current values unchanged; and an entity absent from the fresh
reading (for instance present only in the stored previous map) is absent from the
result, with no error raised. -/
theorem c9_fix_io_counter_overflow_shape :
    (∀ prev current corrected res,
      Disk.fix_io_counter_overflow prev current corrected = some res →
        res.map Prod.fst = current.map Prod.fst ∧
        (∀ n c, List.lookup n current = some c →
          (List.lookup n prev = none ∨ List.lookup n corrected = none) →
          List.lookup n res = some c) ∧
        (∀ n, List.lookup n current = none → List.lookup n res = none)) ∧
    (∀ prev current corrected res,
      NetLinux.fix_io_counter_overflow prev current corrected = some res →
        res.map Prod.fst = current.map Prod.fst ∧
        (∀ n c, List.lookup n current = some c →
          (List.lookup n prev = none ∨ List.lookup n corrected = none) →
          List.lookup n res = some c) ∧
        (∀ n, List.lookup n current = none → List.lookup n res = none)) := by
  constructor
  · intro prev current corrected res h
    refine ⟨fixList_keys _ _ _ h, ?_, ?_⟩
    · intro n c hc hmiss
      rw [fixList_lookup _ _ _ h n, hc]
      rcases hmiss with h1 | h2
      · simp [Disk.fix_entry, h1]
      · cases hp : List.lookup n prev <;> simp [Disk.fix_entry, hp, h2]
    · intro n hn
      rw [fixList_lookup _ _ _ h n, hn]
      rfl
  · intro prev current corrected res h
    refine ⟨fixList_keys _ _ _ h, ?_, ?_⟩
    · intro n c hc hmiss
      rw [fixList_lookup _ _ _ h n, hc]
      rcases hmiss with h1 | h2
      · simp [NetLinux.fix_entry, h1]
      · cases hp : List.lookup n prev <;> simp [NetLinux.fix_entry, hp, h2]
    · intro n hn
      rw [fixList_lookup _ _ _ h n, hn]
      rfl

/-- C9 witness: the shape theorem applied with previous map containing only "sda",
current reading containing only "sdb" (so "sdb" passes through raw and "sda" is
silently dropped); and the analogous network case. -/
theorem c9_fix_io_counter_overflow_shape_witness :
    List.lookup "sdb" [("sdb", dB)] = some dB ∧
      List.lookup "sda" [("sdb", dB)] = none ∧
      List.lookup "eth1" [("eth1", nB)] = some nB := by
  have hd := c9_fix_io_counter_overflow_shape.1 [("sda", dA)] [("sdb", dB)] [] [("sdb", dB)]
    (by rfl)
  have hn := c9_fix_io_counter_overflow_shape.2 [("eth0", nA)] [("eth1", nB)] [] [("eth1", nB)]
    (by rfl)
  exact ⟨hd.2.1 "sdb" dB (by rfl) (Or.inl (by rfl)),
    hd.2.2 "sda" (by rfl),
    hn.2.1 "eth1" nB (by rfl) (Or.inr (by rfl))⟩

/-- C3 counterexample: a freshly constructed disk collector, handed a first reading
whose "sda" entry has `read_bytes = 1000`, returns exactly that raw reading — not an
all-zero or empty-delta map; the freshly constructed network collector does the same.
The claim that the first `sample()` call returns an all-zero result is therefore false. -/
theorem c3_first_call_not_zero :
    Disk.disk_io_counters_perdisk Disk.DiskIoCountersCollector.default [("sda", dB)] =
      some ([("sda", dB)], ⟨some [("sda", dB)], some [("sda", dB)]⟩) ∧
      dB.read_bytes = 1000 ∧
      NetLinux.net_io_counters_pernic NetLinux.NetIoCountersCollector.default [("eth0", nB)] =
        some ([("eth0", nB)], ⟨some [("eth0", nB)], some [("eth0", nB)]⟩) ∧
      nB.bytes_sent = 100 := by
  exact ⟨rfl, rfl, rfl, rfl⟩

/-- C3 amended: the first call of a freshly constructed collector stores the fresh
reading as both the previous and the corrected baseline and returns the fresh reading
unchanged (the collectors return nowrap-corrected cumulative totals, never deltas and
never a forced zero result); every later call, with both baselines stored, returns
`fix_io_counter_overflow` of (stored previous, fresh reading, stored corrected) and
stores the fresh reading and the corrected result. -/
theorem c3_collector_baseline :
    (∀ fresh, Disk.disk_io_counters_perdisk Disk.DiskIoCountersCollector.default fresh =
      some (fresh, ⟨some fresh, some fresh⟩)) ∧
    (∀ fresh, NetLinux.net_io_counters_pernic NetLinux.NetIoCountersCollector.default fresh =
      some (fresh, ⟨some fresh, some fresh⟩)) ∧
    (∀ prev corrected fresh res,
      Disk.fix_io_counter_overflow prev fresh corrected = some res →
        Disk.disk_io_counters_perdisk ⟨some prev, some corrected⟩ fresh =
          some (res, ⟨some fresh, some res⟩)) ∧
    (∀ prev corrected fresh res,
      NetLinux.fix_io_counter_overflow prev fresh corrected = some res →
        NetLinux.net_io_counters_pernic ⟨some prev, some corrected⟩ fresh =
          some (res, ⟨some fresh, some res⟩)) := by
  refine ⟨fun fresh => rfl, fun fresh => rfl, ?_, ?_⟩
  · intro prev corrected fresh res h
    simp [Disk.disk_io_counters_perdisk, h]
  · intro prev corrected fresh res h
    simp [NetLinux.net_io_counters_pernic, h]

/-- The nowrap-corrected value of a second network reading `nB` against the stored
baseline `nA`: its four zero counters are seen as wrapped, so each corrects to
`corrected + 0 + (u32::MAX - prev) = u32::MAX`. -/
def nC : NetLinux.NetIoCounters :=
  ⟨100, 200, 300, 400, 4294967295, 4294967295, 4294967295, 4294967295⟩

/-- C3 witness: the baseline theorem applied to a first call on the reading
containing `dA` on "sda", and to a second call against a stored baseline. -/
theorem c3_collector_baseline_witness :
    Disk.disk_io_counters_perdisk Disk.DiskIoCountersCollector.default [("sda", dA)] =
      some ([("sda", dA)], ⟨some [("sda", dA)], some [("sda", dA)]⟩) ∧
      NetLinux.net_io_counters_pernic ⟨some [("eth0", nA)], some [("eth0", nA)]⟩
        [("eth0", nB)] =
        some ([("eth0", nC)], ⟨some [("eth0", nB)], some [("eth0", nC)]⟩) := by
  refine ⟨c3_collector_baseline.1 [("sda", dA)], ?_⟩
  exact c3_collector_baseline.2.2.2 [("eth0", nA)] [("eth0", nA)] [("eth0", nB)]
    [("eth0", nC)] (by rfl)

/-- Checked Duration subtraction: the Rust `Duration` subtraction operator panics on
underflow, modelled as `none`. -/
def durSub (a b : Nat) : Option Nat :=
  if b ≤ a then some (a - b) else none

namespace Cpu

/-- Embedding of `CpuTimes` (Linux configuration), each `Duration` a nanosecond count.
The revision compiled with src/cpu/cpu_times_percent.rs carries `steal`, `guest` and
`guest_nice` as `Option<Duration>` (that file binds them with `and_then`/`map`); the
copy of src/cpu/cpu_times.rs in the tree is an intermediate revision with a plain
`steal` field, which would not compile against the percent module, so the Option form
is followed here. -/
structure CpuTimes where
  user : Nat
  system : Nat
  idle : Nat
  nice : Nat
  iowait : Nat
  irq : Nat
  softirq : Nat
  steal : Option Nat
  guest : Option Nat
  guest_nice : Option Nat
deriving DecidableEq, Repr

/-- CpuTimes::busy (Linux): user + system + nice + irq + softirq + steal, the
optional steal contributing its value or zero. -/
def CpuTimes.busy (t : CpuTimes) : Nat :=
  t.user + t.system + t.nice + t.irq + t.softirq + t.steal.getD 0

/-- The CpuTimes::idle method (Linux): the idle field plus iowait. Named `idleTime`
here because `idle` already names the field. -/
def CpuTimes.idleTime (t : CpuTimes) : Nat :=
  t.idle + t.iowait

/-- CpuTimes::total: busy plus idle. -/
def CpuTimes.total (t : CpuTimes) : Nat :=
  t.busy + t.idleTime

/-- Modelled from the spec: `utils::calculate_cpu_percent`, called by
src/cpu/cpu_times_percent.rs, is not under src/ (the utils module in the tree is an
older revision without it). Per the spec, each category percentage is
100 * (second.f - first.f) / total_diff, computed in floating point; modelled here in
exact rational arithmetic. -/
def calculate_cpu_percent (first second : Nat) (total_diff : Nat) : ℚ :=
  100 * (((second : ℚ) - (first : ℚ)) / (total_diff : ℚ))

/-- Embedding of `CpuTimesPercent` from src/cpu/cpu_times_percent.rs lines 8-27
(Linux configuration); percentages are modelled as exact rationals. -/
structure CpuTimesPercent where
  user : ℚ
  system : ℚ
  idle : ℚ
  nice : ℚ
  iowait : ℚ
  irq : ℚ
  softirq : ℚ
  steal : Option ℚ
  guest : Option ℚ
  guest_nice : Option ℚ
deriving DecidableEq, Repr

/-- The derived `Default` of CpuTimesPercent: every percentage zero, every optional
percentage `None` — the all-zero result. -/
def CpuTimesPercent.default : CpuTimesPercent :=
  ⟨0, 0, 0, 0, 0, 0, 0, none, none, none⟩

/-- Embedding of `calculate_cpu_times_percent` from src/cpu/cpu_times_percent.rs
lines 78-140 (Linux configuration): if `first_total >= second_total` the default
all-zero record is returned; otherwise each field is the percentage of `total_diff`,
the optional fields only when present in both snapshots. -/
def calculate_cpu_times_percent (first second : CpuTimes) : CpuTimesPercent :=
  let first_total := first.total
  let second_total := second.total
  if second_total ≤ first_total then CpuTimesPercent.default
  else
    let total_diff := second_total - first_total
    { user := calculate_cpu_percent first.user second.user total_diff
      system := calculate_cpu_percent first.system second.system total_diff
      idle := calculate_cpu_percent first.idle second.idle total_diff
      nice := calculate_cpu_percent first.nice second.nice total_diff
      iowait := calculate_cpu_percent first.iowait second.iowait total_diff
      irq := calculate_cpu_percent first.irq second.irq total_diff
      softirq := calculate_cpu_percent first.softirq second.softirq total_diff
      steal := first.steal.bind fun f =>
        second.steal.map fun s => calculate_cpu_percent f s total_diff
      guest := first.guest.bind fun f =>
        second.guest.map fun s => calculate_cpu_percent f s total_diff
      guest_nice := first.guest_nice.bind fun f =>
        second.guest_nice.map fun s => calculate_cpu_percent f s total_diff }

end Cpu

namespace SysLinux

/-- Embedding of the `CpuTimes` revision compiled with
src/cpu/sys/linux/cpu_times_percent.rs: ten plain `Duration` fields
(nanosecond counts). -/
structure CpuTimes where
  user : Nat
  nice : Nat
  system : Nat
  idle : Nat
  iowait : Nat
  irq : Nat
  softirq : Nat
  steal : Nat
  guest : Nat
  guest_nice : Nat
deriving DecidableEq, Repr

/-- CpuTimes::busy for that revision (plain steal field, following the formula of
src/cpu/cpu_times.rs for Linux). -/
def CpuTimes.busy (t : CpuTimes) : Nat :=
  t.user + t.system + t.nice + t.irq + t.softirq + t.steal

/-- The CpuTimes::idle method for that revision: idle field plus iowait. -/
def CpuTimes.idleTime (t : CpuTimes) : Nat :=
  t.idle + t.iowait

/-- CpuTimes::total for that revision: busy plus idle. -/
def CpuTimes.total (t : CpuTimes) : Nat :=
  t.busy + t.idleTime

/-- Embedding of `CpuTimesPercent` from src/cpu/sys/linux/cpu_times_percent.rs
lines 10-21: ten mandatory percentage fields. -/
structure CpuTimesPercent where
  user : ℚ
  nice : ℚ
  system : ℚ
  idle : ℚ
  iowait : ℚ
  irq : ℚ
  softirq : ℚ
  steal : ℚ
  guest : ℚ
  guest_nice : ℚ
deriving DecidableEq, Repr

/-- Embedding of `delta_percentage` from src/cpu/sys/linux/cpu_times_percent.rs
lines 56-58: `((second - first).as_nanos() / total_diff.as_nanos()) * 100` in f64.
`none` models the two outcomes with no defined percentage value: the Duration
subtraction panics when `second < first`, and a zero `total_diff` makes the division
0/0 (NaN) or x/0 (infinity) in the IEEE arithmetic of the source. -/
def delta_percentage (first second total_diff : Nat) : Option ℚ :=
  match durSub second first with
  | none => none
  | some d =>
    if total_diff = 0 then none
    else some (((d : ℚ) / (total_diff : ℚ)) * 100)

/-- Embedding of `calculate_cpu_times_percent` from
src/cpu/sys/linux/cpu_times_percent.rs lines 60-76: `total_diff` is the unguarded
Duration subtraction `second.total() - first.total()`, then `delta_percentage` is
applied to every field. Unlike the src/cpu/cpu_times_percent.rs implementation there
is no `first_total >= second_total` early return. -/
def calculate_cpu_times_percent (first second : CpuTimes) : Option CpuTimesPercent :=
  match durSub second.total first.total with
  | none => none
  | some total_diff => do
    let user ← delta_percentage first.user second.user total_diff
    let nice ← delta_percentage first.nice second.nice total_diff
    let system ← delta_percentage first.system second.system total_diff
    let idle ← delta_percentage first.idle second.idle total_diff
    let iowait ← delta_percentage first.iowait second.iowait total_diff
    let irq ← delta_percentage first.irq second.irq total_diff
    let softirq ← delta_percentage first.softirq second.softirq total_diff
    let steal ← delta_percentage first.steal second.steal total_diff
    let guest ← delta_percentage first.guest second.guest total_diff
    let guest_nice ← delta_percentage first.guest_nice second.guest_nice total_diff
    pure ⟨user, nice, system, idle, iowait, irq, softirq, steal, guest, guest_nice⟩

end SysLinux

/-- A concrete CPU snapshot for witnesses of the guarded implementation. -/
def exCpu : Cpu.CpuTimes := ⟨1, 2, 3, 4, 5, 6, 7, some 1, none, none⟩

/-- A concrete CPU snapshot (one tick everywhere) for the sys/linux variant. -/
def exCpuL : SysLinux.CpuTimes := ⟨1, 1, 1, 1, 1, 1, 1, 1, 1, 1⟩

/-- C2 (amended part): for every pair of snapshots with `first.total() >= second.total()`
(including second = first), the guarded implementation in src/cpu/cpu_times_percent.rs
returns the derived default — the all-zero record — before any division is reached, so
it cannot fail, produce a negative percentage, or divide by zero there. -/
theorem c2_zero_total_diff :
    ∀ first second : Cpu.CpuTimes, second.total ≤ first.total →
      Cpu.calculate_cpu_times_percent first second = Cpu.CpuTimesPercent.default := by
  intro first second h
  unfold Cpu.calculate_cpu_times_percent
  simp only [if_pos h]

/-- C2 witness: the zero-result theorem applied back-to-back, with the same snapshot
as both arguments. -/
theorem c2_zero_total_diff_witness :
    Cpu.calculate_cpu_times_percent exCpu exCpu = Cpu.CpuTimesPercent.default :=
  c2_zero_total_diff exCpu exCpu (Nat.le_refl _)

/-- C2 counterexample: the claim quantifies over the CPU percentage-delta computation,
which its sources also locate in src/cpu/sys/linux/cpu_times_percent.rs; that
implementation has no zero guard. At first = second = exCpuL the total difference is
zero and every field becomes the division 0/0 — NaN in the f64 arithmetic of the
source, modelled as the undefined result `none` — not the all-zero record the claim
asserts, refuting the claim as stated at this concrete input. -/
theorem c2_syslinux_nan :
    SysLinux.calculate_cpu_times_percent exCpuL exCpuL = none := by
  rfl

namespace Proc

/-- The kind of a `std::io::Error`: the two kinds the classifier distinguishes, and
an opaque code standing for every other member of the (non-exhaustive) enum. -/
inductive IoErrorKind
| notFound
| permissionDenied
| other (code : Nat)
deriving DecidableEq, Repr

/-- A `std::io::Error`, reduced to the data the classifier consults (its kind) plus
an opaque payload so that distinct platform errors stay distinct. -/
structure IoError where
  kind : IoErrorKind
  payload : Nat
deriving DecidableEq, Repr

/-- Embedding of the crate `Error` enum from src/errors.rs (Unix configuration);
the payloads that the classifier never consults (paths, contents, parse sources)
are kept as opaque values. -/
inductive Error
| readFile (path : String) (source : IoError)
| missingData (path : String) (contents : String)
| parseInt (path : String) (contents : String)
| parseFloat (path : String) (contents : String)
| parseStatus (contents : String)
| nixError (errno : Nat)
| osError (source : IoError)
deriving DecidableEq, Repr

/-- Embedding of the `ProcessError` enum from src/process/errors.rs lines 11-23. -/
inductive ProcessError
| noSuchProcess (pid : Nat)
| zombieProcess (pid : Nat)
| accessDenied (pid : Nat)
| psutilError (pid : Nat) (source : Error)
deriving DecidableEq, Repr

/-- True exactly on the `ZombieProcess` variant. -/
def ProcessError.isZombie : ProcessError → Bool
  | ProcessError.zombieProcess _ => true
  | _ => false

/-- Embedding of `io_error_to_process_error` from src/process/errors.rs lines 33-42:
classification by the kind of the I/O error, every unmatched kind wrapped as
`PsutilError` with the original error as `OsError` source. -/
def io_error_to_process_error (e : IoError) (pid : Nat) : ProcessError :=
  match e.kind with
  | IoErrorKind.notFound => ProcessError.noSuchProcess pid
  | IoErrorKind.permissionDenied => ProcessError.accessDenied pid
  | _ => ProcessError.psutilError pid (Error.osError e)

/-- Embedding of `psutil_error_to_process_error` from src/process/errors.rs
lines 25-31: `ReadFile` and `OsError` delegate their I/O source to
`io_error_to_process_error`; everything else is wrapped unchanged. -/
def psutil_error_to_process_error (e : Error) (pid : Nat) : ProcessError :=
  match e with
  | Error.readFile _ source => io_error_to_process_error source pid
  | Error.osError source => io_error_to_process_error source pid
  | _ => ProcessError.psutilError pid e

/-- Embedding of the `Process` record from src/process/sys/linux/process.rs
lines 27-33; `create_time` and `busy` are Durations (nanosecond counts), `instant`
an opaque timestamp of the `Instant` taken at construction. -/
structure Process where
  pid : Nat
  create_time : Nat
  busy : Nat
  instant : Nat
deriving DecidableEq, Repr

/-- Embedding of `PartialEq for Process` from src/process/process.rs lines 209-216:
identity comparison by pid and create_time only (busy and instant are ignored). -/
def Process.eq (self other : Process) : Bool :=
  self.pid == other.pid && self.create_time == other.create_time

/-- The signals that `send_signal` can be asked to deliver. -/
inductive Signal
| sigkill
| sigterm
| otherSignal (n : Nat)
deriving DecidableEq, Repr

/-- One world state against which a Process identity is re-resolved: `new` is the
outcome of `Process::new(pid)` (the procfs stat read behind it), and `kill` the
outcome of the nix `kill` syscall already wrapped into a process error (the
`errors::NixError` context used at src/process/sys/linux/process.rs line 262 is
declared in a revision of the process errors module that is not under src/, so the
wrapped outcome is left uninterpreted). -/
structure World where
  new : Nat → Except ProcessError Process
  kill : Nat → Signal → Except ProcessError Unit

/-- Embedding of `Process::is_running` from src/process/process.rs lines 152-157:
re-resolve the pid in the given world; true iff resolution succeeds and the resolved
identity equals this one. -/
def is_running (w : World) (self : Process) : Bool :=
  match w.new self.pid with
  | Except.ok p => Process.eq p self
  | Except.error _ => false

/-- Embedding of `Process::is_replaced` from src/process/process.rs lines 160-165:
true iff the pid resolves to a different identity. -/
def is_replaced (w : World) (self : Process) : Bool :=
  match w.new self.pid with
  | Except.ok p => !(Process.eq p self)
  | Except.error _ => false

/-- Embedding of `Process::send_signal` from src/process/sys/linux/process.rs
lines 255-263: the `is_running` pre-check guards the kill syscall. The Bool in the
result records whether the kill syscall was invoked. -/
def send_signal (w : World) (self : Process) (signal : Signal) :
    Except ProcessError Unit × Bool :=
  if !(is_running w self) then
    (Except.error (ProcessError.noSuchProcess self.pid), false)
  else
    (w.kill self.pid signal, true)

/-- Embedding of `Process::kill` from src/process/sys/linux/process.rs lines 277-280:
`send_signal(SIGKILL)`. -/
def kill (w : World) (self : Process) : Except ProcessError Unit × Bool :=
  send_signal w self Signal.sigkill

end Proc

/-- C5: two Process identities are equal exactly when both pid and create_time match
(the busy and instant fields are ignored); and in a world state where pid 100
re-resolves to an identity B with a different create_time than A, the identities
differ, A.is_replaced() is true, and A.is_running() is false. -/
theorem c5_identity_equality :
    (∀ a b : Proc.Process, Proc.Process.eq a b = true ↔
      a.pid = b.pid ∧ a.create_time = b.create_time) ∧
    (∀ (w : Proc.World) (A B : Proc.Process), A.pid = 100 → B.pid = 100 →
      A.create_time ≠ B.create_time → w.new 100 = Except.ok B →
        Proc.Process.eq A B = false ∧
        Proc.is_replaced w A = true ∧
        Proc.is_running w A = false) := by
  constructor
  · intro a b
    simp [Proc.Process.eq]
  · intro w A B hA hB hT hw
    have heqBA : Proc.Process.eq B A = false := by
      have hb : (B.create_time == A.create_time) = false :=
        beq_false_of_ne fun h => hT h.symm
      simp [Proc.Process.eq, hb]
    have heqAB : Proc.Process.eq A B = false := by
      have hb : (A.create_time == B.create_time) = false := beq_false_of_ne hT
      simp [Proc.Process.eq, hb]
    refine ⟨heqAB, ?_, ?_⟩
    · unfold Proc.is_replaced
      rw [hA, hw]
      simp [heqBA]
    · unfold Proc.is_running
      rw [hA, hw]
      exact heqBA

/-- The process identity (pid 100, create_time 1) of the C5 scenario. -/
def procA : Proc.Process := ⟨100, 1, 0, 0⟩

/-- The replacement identity (pid 100, create_time 2) of the C5 scenario. -/
def procB : Proc.Process := ⟨100, 2, 0, 0⟩

/-- A world state in which every pid re-resolves to `procB`. -/
def worldB : Proc.World := ⟨fun _ => Except.ok procB, fun _ _ => Except.ok ()⟩

/-- C5 witness: the identity theorem applied to A = (100, T1 = 1) and B = (100, T2 = 2)
in the world that resolves pid 100 to B. -/
theorem c5_identity_equality_witness :
    Proc.Process.eq procA procB = false ∧
      Proc.is_replaced worldB procA = true ∧
      Proc.is_running worldB procA = false :=
  c5_identity_equality.2 worldB procA procB rfl rfl (by decide) rfl

/-- C6: the classification is a pure total function of the platform error and the
pid (independent of which operation failed): kind NotFound maps to NoSuchProcess at
that pid, kind PermissionDenied maps to AccessDenied at that pid, and every other
kind maps to the catch-all PsutilError carrying the pid and the original error as
its OsError cause. -/
theorem c6_error_classification :
    (∀ (e : Proc.IoError) (pid : Nat), e.kind = Proc.IoErrorKind.notFound →
      Proc.io_error_to_process_error e pid = Proc.ProcessError.noSuchProcess pid) ∧
    (∀ (e : Proc.IoError) (pid : Nat), e.kind = Proc.IoErrorKind.permissionDenied →
      Proc.io_error_to_process_error e pid = Proc.ProcessError.accessDenied pid) ∧
    (∀ (e : Proc.IoError) (pid code : Nat), e.kind = Proc.IoErrorKind.other code →
      Proc.io_error_to_process_error e pid =
        Proc.ProcessError.psutilError pid (Proc.Error.osError e)) := by
  refine ⟨?_, ?_, ?_⟩
  · intro e pid h
    unfold Proc.io_error_to_process_error
    rw [h]
  · intro e pid h
    unfold Proc.io_error_to_process_error
    rw [h]
  · intro e pid code h
    unfold Proc.io_error_to_process_error
    rw [h]

/-- C6 witness: the classification theorem applied to the three kinds at pid 7. -/
theorem c6_error_classification_witness :
    Proc.io_error_to_process_error ⟨Proc.IoErrorKind.notFound, 3⟩ 7 =
      Proc.ProcessError.noSuchProcess 7 ∧
    Proc.io_error_to_process_error ⟨Proc.IoErrorKind.permissionDenied, 3⟩ 7 =
      Proc.ProcessError.accessDenied 7 ∧
    Proc.io_error_to_process_error ⟨Proc.IoErrorKind.other 5, 3⟩ 7 =
      Proc.ProcessError.psutilError 7
        (Proc.Error.osError ⟨Proc.IoErrorKind.other 5, 3⟩) :=
  ⟨c6_error_classification.1 ⟨Proc.IoErrorKind.notFound, 3⟩ 7 rfl,
    c6_error_classification.2.1 ⟨Proc.IoErrorKind.permissionDenied, 3⟩ 7 rfl,
    c6_error_classification.2.2 ⟨Proc.IoErrorKind.other 5, 3⟩ 7 5 rfl⟩

/-- C7 counterexample: the claim asserts that some input to the error-classification
functions yields ZombieProcess. Its negation holds: no input to
`io_error_to_process_error` or `psutil_error_to_process_error` produces the
ZombieProcess variant for any pid. -/
theorem c7_zombie_never_produced :
    ¬ ∃ (e : Proc.IoError) (e2 : Proc.Error) (pid z : Nat),
        Proc.io_error_to_process_error e pid = Proc.ProcessError.zombieProcess z ∨
        Proc.psutil_error_to_process_error e2 pid = Proc.ProcessError.zombieProcess z := by
  rintro ⟨⟨k, pl⟩, e2, pid, z, h | h⟩
  · cases k <;> simp [Proc.io_error_to_process_error] at h
  · cases e2 with
    | readFile p s =>
      obtain ⟨k2, pl2⟩ := s
      cases k2 <;> simp [Proc.psutil_error_to_process_error,
        Proc.io_error_to_process_error] at h
    | osError s =>
      obtain ⟨k2, pl2⟩ := s
      cases k2 <;> simp [Proc.psutil_error_to_process_error,
        Proc.io_error_to_process_error] at h
    | _ => simp [Proc.psutil_error_to_process_error] at h

/-- C7 amended: the ZombieProcess variant is declared in the ProcessError taxonomy
(distinguished from every other variant by `isZombie`), but it is unreachable as an
output of the classification functions: they never return it. The only construction
site in the tree is a commented-out macOS line. -/
theorem c7_zombie_declared_but_unreachable :
    (∀ pid, Proc.ProcessError.isZombie (Proc.ProcessError.zombieProcess pid) = true ∧
      Proc.ProcessError.isZombie (Proc.ProcessError.noSuchProcess pid) = false) ∧
    (∀ (e : Proc.IoError) (pid : Nat),
      Proc.ProcessError.isZombie (Proc.io_error_to_process_error e pid) = false) ∧
    (∀ (e : Proc.Error) (pid : Nat),
      Proc.ProcessError.isZombie (Proc.psutil_error_to_process_error e pid) = false) := by
  refine ⟨fun pid => ⟨rfl, rfl⟩, ?_, ?_⟩
  · rintro ⟨k, pl⟩ pid
    cases k <;> rfl
  · intro e pid
    cases e with
    | readFile p s =>
      obtain ⟨k2, pl2⟩ := s
      cases k2 <;> rfl
    | osError s =>
      obtain ⟨k2, pl2⟩ := s
      cases k2 <;> rfl
    | _ => rfl

/-- C8: when the identity is not running in the world state, send_signal and kill
return the NoSuchProcess error at the identity pid without invoking the kill
syscall; and the kill syscall is invoked only when the is_running pre-check
succeeds. -/
theorem c8_signal_precheck :
    (∀ (w : Proc.World) (p : Proc.Process) (s : Proc.Signal),
      Proc.is_running w p = false →
        Proc.send_signal w p s =
          (Except.error (Proc.ProcessError.noSuchProcess p.pid), false)) ∧
    (∀ (w : Proc.World) (p : Proc.Process),
      Proc.is_running w p = false →
        Proc.kill w p =
          (Except.error (Proc.ProcessError.noSuchProcess p.pid), false)) ∧
    (∀ (w : Proc.World) (p : Proc.Process) (s : Proc.Signal),
      (Proc.send_signal w p s).2 = true → Proc.is_running w p = true) := by
  refine ⟨?_, ?_, ?_⟩
  · intro w p s h
    unfold Proc.send_signal
    rw [h]
    rfl
  · intro w p h
    unfold Proc.kill Proc.send_signal
    rw [h]
    rfl
  · intro w p s h
    cases hR : Proc.is_running w p with
    | true => rfl
    | false =>
      unfold Proc.send_signal at h
      rw [hR] at h
      exact absurd h (by simp)

/-- A world state in which no pid resolves, so every identity is not running. -/
def wDead : Proc.World :=
  ⟨fun pid => Except.error (Proc.ProcessError.noSuchProcess pid), fun _ _ => Except.ok ()⟩

/-- C8 witness: the pre-check theorem applied in the dead world (both signal paths)
and, for the invocation direction, in the world where procB is running. -/
theorem c8_signal_precheck_witness :
    Proc.send_signal wDead procA Proc.Signal.sigterm =
      (Except.error (Proc.ProcessError.noSuchProcess 100), false) ∧
    Proc.kill wDead procA =
      (Except.error (Proc.ProcessError.noSuchProcess 100), false) ∧
    Proc.is_running worldB procB = true :=
  ⟨c8_signal_precheck.1 wDead procA Proc.Signal.sigterm rfl,
    c8_signal_precheck.2.1 wDead procA rfl,
    c8_signal_precheck.2.2 worldB procB Proc.Signal.sigterm rfl⟩
